import Mathlib

/-!
Verification of the homeflix web video player
(`web/src/lib/components/VideoPlayer.svelte`).

The player is a Svelte component; its reactive `$state` variables are
modelled as a record `PlayerState`, and each handler/function is modelled
as a pure state transformer that additionally returns the list of
externally visible effects it performs (`PlayerAction`): stream (re)start
requests, progress writes via `sendBeacon`, subtitle-track requests, and
direct writes to the media element's relative position.

Times and durations are rationals (JS numbers in the source); the only
integer normalization in the source, `Math.max(0, Math.floor(position || 0))`,
is modelled with `Int.floor` on `ℚ`.  `navigator.sendBeacon` may fail at the
browser's discretion; its success is threaded through as the boolean
`beaconOk` (the source updates `lastSavedTime` only on success).

Out of scope (DOM / external-API effects that none of the modelled logic
reads back): the Chromecast remote-control branches, the buffering /
A-V-sync waiting inside `startStreamFrom`, and the canvas-sampling
credits-detection branch of `handleTimeUpdate` (it reads decoded pixels).
-/

/-- One audio track as reported by `GET /v2/media/:id/tracks`
(interface `AudioTrack` in VideoPlayer.svelte). -/
structure AudioTrack where
  index : Int
  language : Option String
  codec : Option String
  channels : Option Int
  title : Option String
  is_default : Bool
deriving DecidableEq, Repr

/-- The player state variables that the verified logic reads or writes.
`videoCurrentTime` / `videoDuration` are the media element's
`currentTime` / `duration` (relative to the current stream; `duration`
is the locally available extent of the in-progress transcode). -/
structure PlayerState where
  currentTime : ℚ
  duration : ℚ
  streamStartOffset : ℚ
  lastSavedTime : ℚ
  videoCurrentTime : ℚ
  videoDuration : ℚ
  selectedAudioTrack : Nat
  selectedSubtitleIndex : Option Nat
  isSeeking : Bool
  isDragging : Bool
  isPlaying : Bool
  isLoading : Bool
  showAudioMenu : Bool
  showSubtitleMenu : Bool
deriving DecidableEq, Repr

/-- Externally visible effects of the player logic.

* `startStream requested start audio` — a new stream URL
  `/v2/stream/web/:id?start=<start>&audio=<audio>` is assigned to the media
  element; `requested` records the (rational) position argument passed to
  `startStreamFrom`, `start` the integer `start=` query parameter.
* `progressWrite pos watched forced` — `sendBeacon` to `/v2/progress/:id`
  with body `current_position_seconds = pos`, `is_watched = watched`;
  `forced` records whether the write came from a `saveProgress(true)` call.
* `subtitleRequest index offset` — a `<track>` element pointing at
  `/v2/subtitles/:id/:index?offset=<offset>` is attached.
* `setRelativeTime t` — `videoElement.currentTime = t` (an in-stream seek,
  no new stream). -/
inductive PlayerAction where
  | startStream (requested : ℚ) (start : Int) (audio : Nat)
  | progressWrite (pos : Int) (watched : Bool) (forced : Bool)
  | subtitleRequest (index : Nat) (offset : ℚ)
  | setRelativeTime (t : ℚ)
deriving DecidableEq, Repr

/-- The position normalization in `startStreamFrom`:
`const safePosition = Math.max(0, Math.floor(position || 0));`
(`position || 0` only replaces `0`/`NaN` by `0`, which is the identity on `ℚ`). -/
def safePositionOf (position : ℚ) : Int :=
  max 0 ⌊position⌋

/-- Model of `saveProgress(force)` (VideoPlayer.svelte lines 733-756).
Non-forced calls are dropped when `currentTime < 5` or when the position
moved less than 5 seconds since the last successful save; otherwise a
beacon is sent with `is_watched = (duration > 0 && currentTime >= duration - 60)`
and `current_position_seconds = Math.floor(currentTime)`, and
`lastSavedTime` is updated when the beacon succeeds. -/
def saveProgress (s : PlayerState) (force : Bool) (beaconOk : Bool) :
    PlayerState × List PlayerAction :=
  if ¬force ∧ s.currentTime < 5 then (s, [])
  else if ¬force ∧ |s.currentTime - s.lastSavedTime| < 5 then (s, [])
  else
    let isWatched := decide (0 < s.duration ∧ s.duration - 60 ≤ s.currentTime)
    let act := PlayerAction.progressWrite ⌊s.currentTime⌋ isWatched force
    if beaconOk then ({ s with lastSavedTime := s.currentTime }, [act])
    else (s, [act])

/-- Model of `enableSubtitle(index)` (lines 867-916): all DOM track
elements are replaced by one pointing at
`/v2/subtitles/:mediaId/:index?offset=${streamStartOffset}`, the index is
recorded and the subtitle menu closed. -/
def enableSubtitle (s : PlayerState) (index : Nat) :
    PlayerState × List PlayerAction :=
  ({ s with selectedSubtitleIndex := some index, showSubtitleMenu := false },
   [PlayerAction.subtitleRequest index s.streamStartOffset])

/-- Model of `startStreamFrom(position, audioTrack?)` (lines 407-574),
restricted to its state/effect content: the start offset is normalized and
recorded in `streamStartOffset`, the stream URL with
`start=safePosition&audio=(audioTrack ?? selectedAudioTrack)` is assigned
(the element's relative clock restarts at 0), and if a subtitle track was
selected it is re-enabled against the new offset.  The buffering and
sync-delay waiting between these steps has no effect on the modelled
state. -/
def startStreamFrom (s : PlayerState) (position : ℚ)
    (audioTrack : Option Nat) : PlayerState × List PlayerAction :=
  let safePosition := safePositionOf position
  let audio := audioTrack.getD s.selectedAudioTrack
  let s1 := { s with streamStartOffset := (safePosition : ℚ),
                     videoCurrentTime := 0,
                     isLoading := false }
  let streamAct := PlayerAction.startStream position safePosition audio
  match s1.selectedSubtitleIndex with
  | some i =>
      let (s2, subActs) := enableSubtitle s1 i
      (s2, streamAct :: subActs)
  | none => (s1, [streamAct])

/-- The clamp performed at the top of `seek`:
`const seekTarget = Math.max(0, Math.min(absoluteTime, duration));`. -/
def seekTargetOf (s : PlayerState) (absoluteTime : ℚ) : ℚ :=
  max 0 (min absoluteTime s.duration)

/-- The relative position a seek maps to:
`const relativeTime = seekTarget - streamStartOffset;`. -/
def seekRelative (s : PlayerState) (absoluteTime : ℚ) : ℚ :=
  seekTargetOf s absoluteTime - s.streamStartOffset

/-- Model of `seek(absoluteTime)` (lines 817-843), local (non-cast) path.
If another seek is in flight the call is ignored.  When the clamped
target lands inside the current stream
(`relativeTime >= 0 && relativeTime <= videoElement.duration`) only the
element's relative position is set; otherwise progress is force-saved and
the stream restarted from the clamped target. -/
def seek (s : PlayerState) (absoluteTime : ℚ) (beaconOk : Bool) :
    PlayerState × List PlayerAction :=
  if s.isSeeking then (s, [])
  else
    let relativeTime := seekRelative s absoluteTime
    if 0 ≤ relativeTime ∧ relativeTime ≤ s.videoDuration then
      ({ s with videoCurrentTime := relativeTime },
       [PlayerAction.setRelativeTime relativeTime])
    else
      let s1 := { s with isSeeking := true }
      let (s2, a1) := saveProgress s1 true beaconOk
      let (s3, a2) := startStreamFrom s2 (seekTargetOf s absoluteTime) none
      ({ s3 with isSeeking := false }, a1 ++ a2)

/-- Model of `switchAudioTrack(trackIndex)` (lines 851-864): selecting the
already-selected track only closes the menu; otherwise progress is
force-saved, the selection updated, and the stream restarted from the
current absolute position with the new audio track. -/
def switchAudioTrack (s : PlayerState) (trackIndex : Nat) (beaconOk : Bool) :
    PlayerState × List PlayerAction :=
  if trackIndex = s.selectedAudioTrack then
    ({ s with showAudioMenu := false }, [])
  else
    let (s1, a1) := saveProgress s true beaconOk
    let s2 := { s1 with selectedAudioTrack := trackIndex,
                        showAudioMenu := false }
    let (s3, a2) := startStreamFrom s2 s2.currentTime (some trackIndex)
    (s3, a1 ++ a2)

/-- Model of the `timeupdate` handler (lines 1101-1112): ignored while the
user drags the progress bar; otherwise the absolute position is
reconstructed as `streamStartOffset + video.currentTime` and a periodic
(non-forced) save is attempted once at least 30 seconds of media have
passed since the last saved position.  (The credits-detection /
next-episode-button branch reads decoded video pixels and is out of
scope; it does not touch the modelled state.) -/
def handleTimeUpdate (s : PlayerState) (videoCurrentTime : ℚ)
    (beaconOk : Bool) : PlayerState × List PlayerAction :=
  if s.isDragging then (s, [])
  else
    let s1 := { s with currentTime := s.streamStartOffset + videoCurrentTime,
                       videoCurrentTime := videoCurrentTime }
    if 0 < s1.currentTime ∧ 30 ≤ s1.currentTime - s1.lastSavedTime then
      saveProgress s1 false beaconOk
    else (s1, [])

/-- Model of the `pause` handler (lines 1153-1156): always force-saves. -/
def handlePause (s : PlayerState) (beaconOk : Bool) :
    PlayerState × List PlayerAction :=
  saveProgress { s with isPlaying := false } true beaconOk

/-- Model of the `ended` handler (lines 1158-1161): always force-saves. -/
def handleEnded (s : PlayerState) (beaconOk : Bool) :
    PlayerState × List PlayerAction :=
  saveProgress { s with isPlaying := false } true beaconOk

/-- Model of the progress-saving part of the component's `onDestroy`
cleanup (lines 699-703): a forced save, but only when
`currentTime > 0 && duration > 0`. -/
def onDestroySave (s : PlayerState) (beaconOk : Bool) :
    PlayerState × List PlayerAction :=
  if 0 < s.currentTime ∧ 0 < s.duration then saveProgress s true beaconOk
  else (s, [])

/-- JS `Array.prototype.findIndex`, with `-1` modelled as `none`. -/
def findIndex (p : α → Bool) : List α → Option Nat
  | [] => none
  | x :: xs => if p x then some 0 else (findIndex p xs).map (· + 1)

/-- JS `String.prototype.toLowerCase`, character-wise (the language codes it
is applied to are ASCII, where JS and Unicode lowercasing agree). -/
def jsToLowerCase (s : String) : String :=
  ⟨s.data.map Char.toLower⟩

/-- The preferred-language test from `loadMedia` (lines 613-615):
`t.language?.toLowerCase() === 'hun' || t.language?.toLowerCase() === 'hu'`. -/
def isHungarian (t : AudioTrack) : Bool :=
  match t.language with
  | some l => jsToLowerCase l == "hun" || jsToLowerCase l == "hu"
  | none => false

/-- The default audio-track selection in `loadMedia` (lines 612-622),
starting from the reset value `selectedAudioTrack = 0`: first the
preferred-language (Hungarian) track if present, else the first track
flagged default, else track 0. -/
def selectDefaultAudioTrack (tracks : List AudioTrack) : Nat :=
  match findIndex isHungarian tracks with
  | some i => i
  | none =>
    if tracks.length > 0 then
      match findIndex (fun t => t.is_default) tracks with
      | some i => i
      | none => 0
    else 0

/-- Concrete player state used to instantiate the verified properties:
50 s into a stream that was started at offset 50 (absolute position 100 s)
of a one-hour medium, 120 s of it locally available, last save at 40 s. -/
def sTest : PlayerState :=
  { currentTime := 100, duration := 3600, streamStartOffset := 50,
    lastSavedTime := 40, videoCurrentTime := 50, videoDuration := 120,
    selectedAudioTrack := 0, selectedSubtitleIndex := none,
    isSeeking := false, isDragging := false, isPlaying := true,
    isLoading := false, showAudioMenu := false, showSubtitleMenu := false }

/-- Variant of `sTest` 100 s into a two-minute medium (inside the
final-minute watched window). -/
def sNearEnd : PlayerState :=
  { sTest with duration := 120 }

/-- Track list with a non-default Hungarian track before a default-flagged
English track: the configuration on which the 4.3 ordering and the 8 test
property disagree. -/
def tracksCex : List AudioTrack :=
  [⟨0, some "hun", none, none, none, false⟩,
   ⟨1, some "eng", none, none, none, true⟩]

theorem saveProgress_force_eq (s : PlayerState) (ok : Bool) :
    saveProgress s true ok =
      ((if ok then { s with lastSavedTime := s.currentTime } else s),
       [PlayerAction.progressWrite ⌊s.currentTime⌋
         (decide (0 < s.duration ∧ s.duration - 60 ≤ s.currentTime)) true]) := by
  unfold saveProgress
  cases ok <;> simp

theorem startStreamFrom_eq (s : PlayerState) (p : ℚ) (a : Option Nat) :
    startStreamFrom s p a =
      match s.selectedSubtitleIndex with
      | some i =>
          ({ s with streamStartOffset := (safePositionOf p : ℚ),
                    videoCurrentTime := 0, isLoading := false,
                    selectedSubtitleIndex := some i, showSubtitleMenu := false },
           [PlayerAction.startStream p (safePositionOf p) (a.getD s.selectedAudioTrack),
            PlayerAction.subtitleRequest i (safePositionOf p : ℚ)])
      | none =>
          ({ s with streamStartOffset := (safePositionOf p : ℚ),
                    videoCurrentTime := 0, isLoading := false },
           [PlayerAction.startStream p (safePositionOf p) (a.getD s.selectedAudioTrack)]) := by
  unfold startStreamFrom enableSubtitle
  cases h : s.selectedSubtitleIndex <;> simp [h]

theorem saveProgress_fst_fields (s : PlayerState) (f ok : Bool) :
    (saveProgress s f ok).1 = s ∨
    (saveProgress s f ok).1 = { s with lastSavedTime := s.currentTime } := by
  unfold saveProgress
  cases f <;> cases ok <;> split_ifs <;> simp

theorem saveProgress_mem (s : PlayerState) (force ok : Bool) {p : Int}
    {w fl : Bool}
    (h : PlayerAction.progressWrite p w fl ∈ (saveProgress s force ok).2) :
    p = ⌊s.currentTime⌋ ∧
    w = decide (0 < s.duration ∧ s.duration - 60 ≤ s.currentTime) ∧
    fl = force := by
  unfold saveProgress at h
  split_ifs at h <;> simp_all

theorem seek_within_eq (s : PlayerState) (t : ℚ) (ok : Bool)
    (h1 : s.isSeeking = false)
    (h2 : 0 ≤ seekRelative s t ∧ seekRelative s t ≤ s.videoDuration) :
    seek s t ok =
      ({ s with videoCurrentTime := seekRelative s t },
       [PlayerAction.setRelativeTime (seekRelative s t)]) := by
  unfold seek
  simp only [h1, Bool.false_eq_true, if_false]
  rw [if_pos h2]

theorem seek_restart_eq (s : PlayerState) (t : ℚ) (ok : Bool)
    (h1 : s.isSeeking = false)
    (h2 : ¬(0 ≤ seekRelative s t ∧ seekRelative s t ≤ s.videoDuration)) :
    (seek s t ok).2 =
      PlayerAction.progressWrite ⌊s.currentTime⌋
          (decide (0 < s.duration ∧ s.duration - 60 ≤ s.currentTime)) true ::
        PlayerAction.startStream (seekTargetOf s t)
          (safePositionOf (seekTargetOf s t)) s.selectedAudioTrack ::
        (match s.selectedSubtitleIndex with
         | some i =>
             [PlayerAction.subtitleRequest i
               ((safePositionOf (seekTargetOf s t) : ℤ) : ℚ)]
         | none => []) := by
  unfold seek
  simp only [h1, Bool.false_eq_true, if_false]
  rw [if_neg h2, saveProgress_force_eq, startStreamFrom_eq]
  cases hsub : s.selectedSubtitleIndex <;> cases ok <;> simp [hsub]

theorem seek_restart_offset (s : PlayerState) (t : ℚ) (ok : Bool)
    (h1 : s.isSeeking = false)
    (h2 : ¬(0 ≤ seekRelative s t ∧ seekRelative s t ≤ s.videoDuration)) :
    (seek s t ok).1.streamStartOffset =
      (safePositionOf (seekTargetOf s t) : ℚ) := by
  unfold seek
  simp only [h1, Bool.false_eq_true, if_false]
  rw [if_neg h2, saveProgress_force_eq, startStreamFrom_eq]
  cases hsub : s.selectedSubtitleIndex <;> cases ok <;> simp [hsub]

theorem switchAudioTrack_eq (s : PlayerState) (i : Nat) (ok : Bool)
    (h : i ≠ s.selectedAudioTrack) :
    (switchAudioTrack s i ok).2 =
      PlayerAction.progressWrite ⌊s.currentTime⌋
          (decide (0 < s.duration ∧ s.duration - 60 ≤ s.currentTime)) true ::
        PlayerAction.startStream s.currentTime (safePositionOf s.currentTime)
          i ::
        (match s.selectedSubtitleIndex with
         | some j =>
             [PlayerAction.subtitleRequest j
               ((safePositionOf s.currentTime : ℤ) : ℚ)]
         | none => [])
    ∧ (switchAudioTrack s i ok).1.streamStartOffset =
        (safePositionOf s.currentTime : ℚ) := by
  cases hsub : s.selectedSubtitleIndex <;> cases ok <;>
    simp [switchAudioTrack, h, saveProgress_force_eq, startStreamFrom_eq, hsub]

theorem findIndex_lt_length {α : Type _} {p : α → Bool} :
    ∀ {l : List α} {i : Nat}, findIndex p l = some i → i < l.length := by
  intro l
  induction l with
  | nil => intro i h; simp [findIndex] at h
  | cons x xs ih =>
      intro i h
      unfold findIndex at h
      split_ifs at h with hx
      · simp at h
        simp [← h]
      · cases hf : findIndex p xs with
        | none => rw [hf] at h; simp at h
        | some j =>
            rw [hf] at h
            simp at h
            have hj := ih hf
            simp only [List.length_cons]
            omega

theorem findIndex_eq_none_iff {α : Type _} {p : α → Bool} {l : List α} :
    findIndex p l = none ↔ ∀ x ∈ l, p x = false := by
  induction l with
  | nil => simp [findIndex]
  | cons x xs ih =>
      unfold findIndex
      split_ifs with hx
      · simp [hx]
      · simp [Option.map_eq_none', ih, Bool.not_eq_true] at hx ⊢
        intro _
        exact hx

/-- Claim C9: for every requested stream start position p (negative or
fractional included), the `start` parameter sent in the stream request
equals floor(max(0, p)) — the source's `max(0, floor(p))` agrees with it —
it is a non-negative integer, and the recorded stream start offset equals
that same normalized value. -/
theorem stream_start_normalization (s : PlayerState) (p : ℚ) (a : Option Nat) :
    safePositionOf p = ⌊max 0 p⌋ ∧
    0 ≤ safePositionOf p ∧
    (startStreamFrom s p a).1.streamStartOffset = (safePositionOf p : ℚ) ∧
    PlayerAction.startStream p (safePositionOf p) (a.getD s.selectedAudioTrack)
      ∈ (startStreamFrom s p a).2 := by
  refine ⟨?_, le_max_left 0 _, ?_, ?_⟩
  · unfold safePositionOf
    rcases le_total p 0 with h | h
    · rw [max_eq_left (Int.floor_nonpos h), max_eq_left h, Int.floor_zero]
    · rw [max_eq_right (Int.floor_nonneg.mpr h), max_eq_right h]
  · rw [startStreamFrom_eq]
    cases h : s.selectedSubtitleIndex <;> simp [h]
  · rw [startStreamFrom_eq]
    cases h : s.selectedSubtitleIndex <;> simp [h]

theorem saveProgress_currentTime (s : PlayerState) (f ok : Bool) :
    (saveProgress s f ok).1.currentTime = s.currentTime := by
  rcases saveProgress_fst_fields s f ok with he | he <;> rw [he]

/-- Claim C5: on every processed time update (one not swallowed by the
progress-bar drag guard), the absolute position reported to the user is
the current stream's start offset plus the playback element's relative
time. -/
theorem timeUpdate_reports_absolute_position (s : PlayerState) (v : ℚ)
    (ok : Bool) (h : s.isDragging = false) :
    (handleTimeUpdate s v ok).1.currentTime = s.streamStartOffset + v := by
  unfold handleTimeUpdate
  simp only [h, Bool.false_eq_true, if_false]
  split_ifs with hc
  · exact saveProgress_currentTime _ false ok
  · rfl

/-- Witness for C5 at the concrete state `sTest` with relative time 50. -/
theorem timeUpdate_reports_absolute_position_witness :
    (handleTimeUpdate sTest 50 true).1.currentTime =
      sTest.streamStartOffset + 50 :=
  timeUpdate_reports_absolute_position sTest 50 true rfl

/-- Claim C10: selecting the already-selected audio track is a no-op —
no actions are emitted (no restart, no progress write) and the state is
unchanged except that the audio menu closes. -/
theorem switch_to_selected_track_is_noop (s : PlayerState) (i : Nat)
    (ok : Bool) (h : i = s.selectedAudioTrack) :
    switchAudioTrack s i ok = ({ s with showAudioMenu := false }, []) := by
  unfold switchAudioTrack
  rw [if_pos h]

/-- Witness for C10 at the concrete state `sTest` (track 0 is selected). -/
theorem switch_to_selected_track_is_noop_witness :
    switchAudioTrack sTest 0 true = ({ sTest with showAudioMenu := false }, []) :=
  switch_to_selected_track_is_noop sTest 0 true rfl

/-- Claim C3: every progress write issued by the player carries
`is_watched = true` iff the duration is positive and the current absolute
position is at least duration minus 60 seconds; the written position is
the floor of the current absolute position. -/
theorem progressWrite_isWatched_iff (s : PlayerState) (force ok : Bool)
    (p : Int) (w fl : Bool)
    (h : PlayerAction.progressWrite p w fl ∈ (saveProgress s force ok).2) :
    (w = true ↔ (0 < s.duration ∧ s.duration - 60 ≤ s.currentTime)) ∧
    p = ⌊s.currentTime⌋ := by
  obtain ⟨hp, hw, -⟩ := saveProgress_mem s force ok h
  exact ⟨by rw [hw]; exact decide_eq_true_iff, hp⟩

/-- Witness for C3: at `sNearEnd` (position 100 of a 120 s medium) the
forced write carries `is_watched = true`. -/
theorem progressWrite_isWatched_iff_witness :
    ((true = true) ↔ (0 < sNearEnd.duration ∧
      sNearEnd.duration - 60 ≤ sNearEnd.currentTime)) ∧
    (100 : Int) = ⌊sNearEnd.currentTime⌋ :=
  progressWrite_isWatched_iff sNearEnd true true 100 true true
    (by norm_num [saveProgress, sNearEnd, sTest])

/-- Claim C1: for a seek to absolute time t during playback (t clamped to
[0, duration]), a new stream is started iff the clamped target minus the
current stream's start offset falls outside [0, locally-available
duration]; inside that window the call only sets the element's relative
position to the difference and emits no stream start; outside it the
restart is requested from the clamped target. -/
theorem seek_restart_iff_outside_window (s : PlayerState) (t : ℚ) (ok : Bool)
    (h : s.isSeeking = false) :
    ((∃ req st au, PlayerAction.startStream req st au ∈ (seek s t ok).2) ↔
      ¬(0 ≤ seekRelative s t ∧ seekRelative s t ≤ s.videoDuration)) ∧
    ((0 ≤ seekRelative s t ∧ seekRelative s t ≤ s.videoDuration) →
      seek s t ok = ({ s with videoCurrentTime := seekRelative s t },
        [PlayerAction.setRelativeTime (seekRelative s t)])) ∧
    (¬(0 ≤ seekRelative s t ∧ seekRelative s t ≤ s.videoDuration) →
      PlayerAction.startStream (seekTargetOf s t)
        (safePositionOf (seekTargetOf s t)) s.selectedAudioTrack
        ∈ (seek s t ok).2) := by
  by_cases hw : 0 ≤ seekRelative s t ∧ seekRelative s t ≤ s.videoDuration
  · have he := seek_within_eq s t ok h hw
    refine ⟨?_, fun _ => he, fun hc => absurd hw hc⟩
    constructor
    · rintro ⟨req, st, au, hmem⟩
      rw [he] at hmem
      simp at hmem
    · intro hc
      exact absurd hw hc
  · have he := seek_restart_eq s t ok h hw
    refine ⟨⟨fun _ => hw, fun _ => ?_⟩, fun hc => absurd hc hw, fun _ => ?_⟩
    · exact ⟨seekTargetOf s t, safePositionOf (seekTargetOf s t),
        s.selectedAudioTrack, by rw [he]; simp⟩
    · rw [he]; simp

/-- Witness for C1 at `sTest` with t = 500 (outside the 120 s available
window of a stream started at offset 50). -/
theorem seek_restart_iff_outside_window_witness :
    ((∃ req st au, PlayerAction.startStream req st au ∈ (seek sTest 500 true).2) ↔
      ¬(0 ≤ seekRelative sTest 500 ∧ seekRelative sTest 500 ≤ sTest.videoDuration)) ∧
    ((0 ≤ seekRelative sTest 500 ∧ seekRelative sTest 500 ≤ sTest.videoDuration) →
      seek sTest 500 true = ({ sTest with videoCurrentTime := seekRelative sTest 500 },
        [PlayerAction.setRelativeTime (seekRelative sTest 500)])) ∧
    (¬(0 ≤ seekRelative sTest 500 ∧ seekRelative sTest 500 ≤ sTest.videoDuration) →
      PlayerAction.startStream (seekTargetOf sTest 500)
        (safePositionOf (seekTargetOf sTest 500)) sTest.selectedAudioTrack
        ∈ (seek sTest 500 true).2) :=
  seek_restart_iff_outside_window sTest 500 true rfl

/-- Claim C4: switching to a different audio track restarts the stream
from the current absolute playback position — the position argument of the
restart is the live `currentTime` (normalized per C9 on the wire), the new
stream start offset equals that normalized position, and whenever at least
one second of playback has elapsed the offset is nonzero. -/
theorem switch_restarts_from_current_position (s : PlayerState) (i : Nat)
    (ok : Bool) (h : i ≠ s.selectedAudioTrack) :
    (∃ w rest, (switchAudioTrack s i ok).2 =
      PlayerAction.progressWrite ⌊s.currentTime⌋ w true ::
        PlayerAction.startStream s.currentTime (safePositionOf s.currentTime)
          i :: rest) ∧
    (switchAudioTrack s i ok).1.streamStartOffset =
      (safePositionOf s.currentTime : ℚ) ∧
    (1 ≤ s.currentTime → 1 ≤ safePositionOf s.currentTime) := by
  obtain ⟨ha, ho⟩ := switchAudioTrack_eq s i ok h
  refine ⟨⟨_, _, ha⟩, ho, fun h1 => ?_⟩
  exact le_trans (Int.le_floor.mpr (by exact_mod_cast h1)) (le_max_right 0 _)

/-- Witness for C4 at `sTest` switching from track 0 to track 1. -/
theorem switch_restarts_from_current_position_witness :
    (∃ w rest, (switchAudioTrack sTest 1 true).2 =
      PlayerAction.progressWrite ⌊sTest.currentTime⌋ w true ::
        PlayerAction.startStream sTest.currentTime
          (safePositionOf sTest.currentTime) 1 :: rest) ∧
    (switchAudioTrack sTest 1 true).1.streamStartOffset =
      (safePositionOf sTest.currentTime : ℚ) ∧
    (1 ≤ sTest.currentTime → 1 ≤ safePositionOf sTest.currentTime) :=
  switch_restarts_from_current_position sTest 1 true (by decide)

/-- Claim C6: whenever a seek outside the available window or an
audio-track switch triggers a restart, a forced progress write at the
pre-seek/pre-switch absolute position is the first emitted action,
strictly before the stream start request. -/
theorem forced_write_precedes_stream_restart (s : PlayerState) (t : ℚ)
    (i : Nat) (ok : Bool) (h1 : s.isSeeking = false)
    (h2 : ¬(0 ≤ seekRelative s t ∧ seekRelative s t ≤ s.videoDuration))
    (h3 : i ≠ s.selectedAudioTrack) :
    (∃ w rest, (seek s t ok).2 =
      PlayerAction.progressWrite ⌊s.currentTime⌋ w true ::
        PlayerAction.startStream (seekTargetOf s t)
          (safePositionOf (seekTargetOf s t)) s.selectedAudioTrack :: rest) ∧
    (∃ w rest, (switchAudioTrack s i ok).2 =
      PlayerAction.progressWrite ⌊s.currentTime⌋ w true ::
        PlayerAction.startStream s.currentTime (safePositionOf s.currentTime)
          i :: rest) :=
  ⟨⟨_, _, seek_restart_eq s t ok h1 h2⟩,
   ⟨_, _, (switchAudioTrack_eq s i ok h3).1⟩⟩

/-- Witness for C6 at `sTest` with a seek to 500 and a switch to track 1. -/
theorem forced_write_precedes_stream_restart_witness :
    (∃ w rest, (seek sTest 500 true).2 =
      PlayerAction.progressWrite ⌊sTest.currentTime⌋ w true ::
        PlayerAction.startStream (seekTargetOf sTest 500)
          (safePositionOf (seekTargetOf sTest 500)) sTest.selectedAudioTrack ::
          rest) ∧
    (∃ w rest, (switchAudioTrack sTest 1 true).2 =
      PlayerAction.progressWrite ⌊sTest.currentTime⌋ w true ::
        PlayerAction.startStream sTest.currentTime
          (safePositionOf sTest.currentTime) 1 :: rest) :=
  forced_write_precedes_stream_restart sTest 500 1 true rfl
    (by norm_num [seekRelative, seekTargetOf, sTest]) (by decide)

/-- Counterexample to C2 as stated: on `tracksCex` (a non-default
Hungarian track followed by a default-flagged English track) the code
selects index 0, whose track is not flagged default, although a
default-flagged track exists — the default flag does not take precedence. -/
theorem default_flag_not_selected_counterexample :
    selectDefaultAudioTrack tracksCex = 0 ∧
    (tracksCex[0]?).map AudioTrack.is_default = some false ∧
    (tracksCex[1]?).map AudioTrack.is_default = some true := by
  decide

/-- Claim C2 (amended): for every non-empty track list the selected index
is in range; if a preferred-language (Hungarian) track exists, the
selected index is the first such track; only when no preferred-language
track exists is the first default-flagged track selected, and with
neither, track 0 — i.e. the preferred-language override wins over the
default flag, as in the 8 test property and contrary to the 4.3 ordering. -/
theorem audio_track_selection_policy (tracks : List AudioTrack)
    (h : tracks ≠ []) :
    selectDefaultAudioTrack tracks < tracks.length ∧
    ((∃ t ∈ tracks, isHungarian t = true) →
      findIndex isHungarian tracks = some (selectDefaultAudioTrack tracks)) ∧
    ((∀ t ∈ tracks, isHungarian t = false) →
      ((∃ t ∈ tracks, t.is_default = true) →
        findIndex (fun t => t.is_default) tracks =
          some (selectDefaultAudioTrack tracks)) ∧
      ((∀ t ∈ tracks, t.is_default = false) →
        selectDefaultAudioTrack tracks = 0)) := by
  unfold selectDefaultAudioTrack
  cases hH : findIndex isHungarian tracks with
  | some i =>
      refine ⟨findIndex_lt_length hH, fun _ => rfl, fun hall => ?_⟩
      rw [findIndex_eq_none_iff.mpr hall] at hH
      cases hH
  | none =>
      have hlen : 0 < tracks.length := List.length_pos.mpr h
      rw [if_pos hlen]
      cases hD : findIndex (fun t => t.is_default) tracks with
      | some j =>
          refine ⟨findIndex_lt_length hD, ?_, fun _ => ⟨fun _ => rfl, fun hnd => ?_⟩⟩
          · rintro ⟨t, ht, hpt⟩
            have hf := findIndex_eq_none_iff.mp hH t ht
            rw [hf] at hpt
            cases hpt
          · rw [findIndex_eq_none_iff.mpr hnd] at hD
            cases hD
      | none =>
          refine ⟨hlen, ?_, fun _ => ⟨?_, fun _ => rfl⟩⟩
          · rintro ⟨t, ht, hpt⟩
            have hf := findIndex_eq_none_iff.mp hH t ht
            rw [hf] at hpt
            cases hpt
          · rintro ⟨t, ht, hpt⟩
            have hf := findIndex_eq_none_iff.mp hD t ht
            rw [hf] at hpt
            cases hpt

/-- Witness for C2 (amended) at the concrete track list `tracksCex`. -/
theorem audio_track_selection_policy_witness :
    selectDefaultAudioTrack tracksCex < tracksCex.length ∧
    ((∃ t ∈ tracksCex, isHungarian t = true) →
      findIndex isHungarian tracksCex = some (selectDefaultAudioTrack tracksCex)) ∧
    ((∀ t ∈ tracksCex, isHungarian t = false) →
      ((∃ t ∈ tracksCex, t.is_default = true) →
        findIndex (fun t => t.is_default) tracksCex =
          some (selectDefaultAudioTrack tracksCex)) ∧
      ((∀ t ∈ tracksCex, t.is_default = false) →
        selectDefaultAudioTrack tracksCex = 0)) :=
  audio_track_selection_policy tracksCex (by decide)

/-- Counterexample to C7 as stated: closing the player before any
playback (`currentTime = 0`) issues no write at all, so player close does
not always issue a forced write. -/
theorem player_close_without_playback_no_write :
    (onDestroySave { sTest with currentTime := 0 } true).2 = [] := by
  norm_num [onDestroySave, sTest]

/-- Claim C7 (amended): the debounce lives in the player — a periodic
time-update write is non-forced and occurs only when at least 30 seconds
of media have passed since the last saved position; pause, natural end and
a restart-triggering seek always issue a forced write at the current
position regardless of the elapsed interval; player close issues the
forced write exactly when `currentTime > 0` and `duration > 0`. -/
theorem progress_write_debounce_policy :
    (∀ s : PlayerState, ∀ v : ℚ, ∀ ok : Bool, ∀ p : Int, ∀ w f : Bool,
      PlayerAction.progressWrite p w f ∈ (handleTimeUpdate s v ok).2 →
      f = false ∧ 30 ≤ s.streamStartOffset + v - s.lastSavedTime) ∧
    (∀ s : PlayerState, ∀ ok : Bool, ∃ w,
      (handlePause s ok).2 = [PlayerAction.progressWrite ⌊s.currentTime⌋ w true]) ∧
    (∀ s : PlayerState, ∀ ok : Bool, ∃ w,
      (handleEnded s ok).2 = [PlayerAction.progressWrite ⌊s.currentTime⌋ w true]) ∧
    (∀ s : PlayerState, ∀ t : ℚ, ∀ ok : Bool, s.isSeeking = false →
      ¬(0 ≤ seekRelative s t ∧ seekRelative s t ≤ s.videoDuration) →
      ∃ w rest, (seek s t ok).2 =
        PlayerAction.progressWrite ⌊s.currentTime⌋ w true :: rest) ∧
    (∀ s : PlayerState, ∀ ok : Bool,
      ((0 < s.currentTime ∧ 0 < s.duration) → ∃ w,
        (onDestroySave s ok).2 =
          [PlayerAction.progressWrite ⌊s.currentTime⌋ w true]) ∧
      (¬(0 < s.currentTime ∧ 0 < s.duration) →
        (onDestroySave s ok).2 = [])) := by
  refine ⟨?_, ?_, ?_, ?_, ?_⟩
  · intro s v ok p w f hmem
    unfold handleTimeUpdate at hmem
    split_ifs at hmem with hd
    · simp at hmem
    · simp only [] at hmem
      split_ifs at hmem with hc
      · obtain ⟨-, -, hfl⟩ := saveProgress_mem _ false ok hmem
        exact ⟨hfl, hc.2⟩
      · simp at hmem
  · intro s ok
    refine ⟨decide (0 < s.duration ∧ s.duration - 60 ≤ s.currentTime), ?_⟩
    unfold handlePause
    rw [saveProgress_force_eq]
  · intro s ok
    refine ⟨decide (0 < s.duration ∧ s.duration - 60 ≤ s.currentTime), ?_⟩
    unfold handleEnded
    rw [saveProgress_force_eq]
  · intro s t ok h1 h2
    exact ⟨_, _, seek_restart_eq s t ok h1 h2⟩
  · intro s ok
    constructor
    · intro hc
      refine ⟨decide (0 < s.duration ∧ s.duration - 60 ≤ s.currentTime), ?_⟩
      unfold onDestroySave
      rw [if_pos hc, saveProgress_force_eq]
    · intro hc
      unfold onDestroySave
      rw [if_neg hc]

/-- Witness for C7 (amended): pause and close at `sTest` both emit the
forced write. -/
theorem progress_write_debounce_policy_witness :
    (∃ w, (handlePause sTest true).2 =
      [PlayerAction.progressWrite ⌊sTest.currentTime⌋ w true]) ∧
    (∃ w, (onDestroySave sTest true).2 =
      [PlayerAction.progressWrite ⌊sTest.currentTime⌋ w true]) :=
  ⟨progress_write_debounce_policy.2.1 sTest true,
   (progress_write_debounce_policy.2.2.2.2 sTest true).1 (by norm_num [sTest])⟩

/-- Claim C8: every subtitle enable requests the subtitle with an offset
parameter equal to the current stream's start offset, and on a stream
restart with a subtitle selected the re-issued subtitle request carries
the new stream's (normalized) start offset, which is also the recorded
offset. -/
theorem subtitle_request_carries_stream_offset (s : PlayerState) (i : Nat)
    (p : ℚ) (a : Option Nat) (h : s.selectedSubtitleIndex = some i) :
    (enableSubtitle s i).2 =
      [PlayerAction.subtitleRequest i s.streamStartOffset] ∧
    PlayerAction.subtitleRequest i (safePositionOf p : ℚ)
      ∈ (startStreamFrom s p a).2 ∧
    (startStreamFrom s p a).1.streamStartOffset = (safePositionOf p : ℚ) := by
  refine ⟨rfl, ?_, ?_⟩ <;> rw [startStreamFrom_eq] <;> simp [h]

/-- Witness for C8 at `sTest` with subtitle 2 selected and a restart
from position 500. -/
theorem subtitle_request_carries_stream_offset_witness :
    (enableSubtitle { sTest with selectedSubtitleIndex := some 2 } 2).2 =
      [PlayerAction.subtitleRequest 2
        { sTest with selectedSubtitleIndex := some 2 }.streamStartOffset] ∧
    PlayerAction.subtitleRequest 2 (safePositionOf 500 : ℚ)
      ∈ (startStreamFrom { sTest with selectedSubtitleIndex := some 2 } 500 none).2 ∧
    (startStreamFrom { sTest with selectedSubtitleIndex := some 2 } 500
        none).1.streamStartOffset = (safePositionOf 500 : ℚ) :=
  subtitle_request_carries_stream_offset
    { sTest with selectedSubtitleIndex := some 2 } 2 500 none rfl
